import Mathlib

/-!
Verification development for the battle-chess-3d choreography subsystem.

The definitions below are shallow embeddings of the TypeScript sources:
`src/game/attackSequences.ts`, `src/game/pieceAttributes.ts`,
`src/render/pieceEntities.ts`, `src/render/board.ts` and the piece-manager
module (choreographer).  JavaScript numbers are idealized as `ℚ` (for the
discrete scheduling arithmetic) and `ℝ` (for the continuous motion
interpolation); `undefined`/`null` become `Option`; the JS `Map` square
index becomes a function `String → Option String` with pointwise
set/delete.
-/

/-- PieceType from chessEngine.ts: 'p' | 'r' | 'n' | 'b' | 'q' | 'k'. -/
inductive PieceType where
  | p | r | n | b | q | k
deriving DecidableEq, Repr

/-- Color from chessEngine.ts: 'w' | 'b'. -/
inductive Color where
  | w | b
deriving DecidableEq, Repr

/-- PieceColorName from pieceAttributes.ts: 'white' | 'black'. -/
inductive ColorName where
  | white | black
deriving DecidableEq, Repr

/-- The five entity states of PieceEntity.state (pieceEntities.ts). -/
inductive PState where
  | idle | moving | attacking | dying | dead
deriving DecidableEq, Repr

/-- Target of an attack-sequence step: 'attacker' | 'victim'. -/
inductive Target where
  | attacker | victim
deriving DecidableEq, Repr

/-- squareFromCoords (piece manager / main module):
`String.fromCharCode(97 + file)` + `(rank + 1)` rendered in decimal. -/
def squareFromCoords (file rank : ℤ) : String :=
  String.mk [Char.ofNat (97 + file).toNat] ++ toString (rank + 1)

/-- JS `parseInt(c, 10)` restricted to a single character: the digit value
when `c` is a decimal digit, `none` (modelling NaN) otherwise. -/
def jsDigitVal (c : Char) : Option ℕ :=
  if 48 ≤ c.toNat ∧ c.toNat ≤ 57 then some (c.toNat - 48) else none

/-- coordsFromSquare (piece manager / main module):
file = `charCodeAt(0) - 97`, rank = `parseInt(square[1], 10) - 1`.
`none` models the NaN results on strings that do not carry a digit at
index 1 (or are too short). -/
def coordsFromSquare (square : String) : Option (ℤ × ℤ) :=
  match square.data with
  | c0 :: c1 :: _ =>
    match jsDigitVal c1 with
    | some d => some (((c0.toNat : ℤ) - 97, (d : ℤ) - 1))
    | none => none
  | _ => none

/-- THREE.Vector3, idealized over the reals. -/
@[ext]
structure Vec3 where
  x : ℝ
  y : ℝ
  z : ℝ

/-- Componentwise subtraction (THREE.Vector3.subVectors). -/
def Vec3.sub (a b : Vec3) : Vec3 :=
  ⟨a.x - b.x, a.y - b.y, a.z - b.z⟩

/-- Componentwise addition. -/
def Vec3.add (a b : Vec3) : Vec3 :=
  ⟨a.x + b.x, a.y + b.y, a.z + b.z⟩

/-- Scalar multiple (THREE.Vector3.multiplyScalar / addScaledVector). -/
def Vec3.smul (c : ℝ) (v : Vec3) : Vec3 :=
  ⟨c * v.x, c * v.y, c * v.z⟩

/-- Euclidean norm (THREE.Vector3.length). -/
noncomputable def Vec3.length (v : Vec3) : ℝ :=
  Real.sqrt (v.x * v.x + v.y * v.y + v.z * v.z)

/-- THREE.Vector3.normalize: divides by `length || 1`, so the zero vector
is left unchanged. -/
noncomputable def Vec3.normalize (v : Vec3) : Vec3 :=
  Vec3.smul (1 / (if v.length = 0 then 1 else v.length)) v

/-- The motion-relevant slice of a PieceEntity (pieceEntities.ts): current
world position, the optional motion target and speed, and the optional
one-shot completion callback.  Callbacks are opaque to the interpolator, so
they are represented by abstract identifiers. -/
structure MotionEntity where
  position : Vec3
  moveTarget : Option Vec3
  moveSpeed : Option ℝ
  onMoveComplete : Option ℕ

/-- The position-motion block of updatePieceEntities (pieceEntities.ts,
lines 403-420) for a single entity.  The JS guard
`entity.moveTarget && entity.moveSpeed` requires both fields present and a
nonzero (truthy) speed.  On arrival (distance ≤ speed·dt) the position is
copied from the target, the target and callback fields are cleared, and
the stored callback is returned as fired; otherwise the entity advances by
speed·dt along the normalized direction to the target.  The rotation and
mixer blocks of the loop body do not touch any of these fields. -/
noncomputable def updateEntityMotion (e : MotionEntity) (deltaTime : ℝ) :
    MotionEntity × Option ℕ :=
  match e.moveTarget, e.moveSpeed with
  | some target, some speed =>
    if speed = 0 then (e, none)
    else
      let toTarget := Vec3.sub target e.position
      let distance := toTarget.length
      if distance ≤ speed * deltaTime then
        ({ e with
            position := target
            moveTarget := none
            onMoveComplete := none }, e.onMoveComplete)
      else
        ({ e with
            position :=
              Vec3.add e.position
                (Vec3.smul (speed * deltaTime) toTarget.normalize) }, none)
  | _, _ => (e, none)

/-- A concrete motion entity used by the C1 witness: at the origin, target
(3,0,0), speed 1, callback id 42. -/
def motionWitnessEntity : MotionEntity :=
  ⟨⟨0, 0, 0⟩, some ⟨3, 0, 0⟩, some 1, some 42⟩

/-- AttackSequenceStep (attackSequences.ts): step target, clip name,
millisecond offset `at` (named `atMs` here because `at` is reserved in
Lean), optional `move` flag (absence is falsy, so it is a plain Bool
here) and optional speed. -/
structure AttackSequenceStep where
  target : Target
  clip : String
  atMs : ℚ
  move : Bool
  speed : Option ℚ
deriving DecidableEq, Repr

/-- AttackSequencesConfig (attackSequences.ts): optional `defaults.attack`
list and an `overrides` table keyed by attacker and victim piece name.
The PieceName keys are represented directly by PieceType, composing the
typeToName bijection into the key. -/
structure AttackSequencesConfig where
  version : ℤ
  defaults : Option (List AttackSequenceStep)
  overrides : PieceType → PieceType → Option (List AttackSequenceStep)

/-- getAttackSequence (attackSequences.ts, lines 42-55), with the
module-level `currentConfig` passed explicitly.  The lookup is
`currentConfig?.overrides?.[attacker]?.[victim]`, returned when present
(a JS array is always truthy, even when empty), otherwise
`currentConfig?.defaults?.attack ?? []`.  Note: the function has no
attacker-color parameter. -/
def getAttackSequence (currentConfig : Option AttackSequencesConfig)
    (attackerType victimType : PieceType) : List AttackSequenceStep :=
  match currentConfig.bind (fun c => c.overrides attackerType victimType) with
  | some override => override
  | none => (currentConfig.bind (fun c => c.defaults)).getD []

/-- A concrete attack step used by the C6 evaluation. -/
def strikeStep : AttackSequenceStep :=
  ⟨Target.attacker, "attack", 0, false, none⟩

/-- C6 failing input: a configuration carrying a rook→pawn override and an
empty generic default sequence. -/
def seqCfgRookPawn : AttackSequencesConfig :=
  ⟨1, some [],
    fun a v =>
      if a = PieceType.r ∧ v = PieceType.p then some [strikeStep] else none⟩

/-- A scale override value (pieceAttributes.ts ScaleOverride): either a
plain number or a per-color record whose entries may be absent, null or
undefined (all collapsed to `none`). -/
inductive ScaleOverride where
  | num (value : ℚ)
  | byColor (white black : Option ℚ)
deriving DecidableEq, Repr

/-- readScaleValue (pieceAttributes.ts, lines 89-99): a plain finite
number is returned directly; a per-color record is consulted only when a
color was supplied; every other case yields null.  `Number.isFinite`
always holds for the idealized rationals. -/
def readScaleValue (scale : Option ScaleOverride)
    (color : Option ColorName) : Option ℚ :=
  match scale, color with
  | some (ScaleOverride.num v), _ => some v
  | some (ScaleOverride.byColor w b), some c =>
    (match c with | ColorName.white => w | ColorName.black => b)
  | _, _ => none

/-- resolveScale (pieceAttributes.ts, lines 77-87): override value, then
default value, then the hard-coded 0.8. -/
def resolveScale (overrideScale defaultScale : Option ScaleOverride)
    (color : Option ColorName) : ℚ :=
  match readScaleValue overrideScale color with
  | some v => v
  | none =>
    match readScaleValue defaultScale color with
    | some v => v
    | none => 0.8

/-- The scale slice of PieceAttributesConfig (pieceAttributes.ts):
`defaults?.scale` and `overrides?.[pieceName]?.scale`; the other fields
(colors, materials, channels) play no role in the claims. -/
structure PieceAttributesConfig where
  defaultsScale : Option ScaleOverride
  overridesScale : PieceType → Option ScaleOverride

/-- getPieceScaleForColor (pieceAttributes.ts, lines 125-130) with the
module-level `currentConfig` passed explicitly. -/
def getPieceScaleForColor (currentConfig : Option PieceAttributesConfig)
    (type : PieceType) (color : ColorName) : ℚ :=
  resolveScale (currentConfig.bind (fun c => c.overridesScale type))
    (currentConfig.bind (fun c => c.defaultsScale)) (some color)

/-- Modelled from the spec: a layered numeric attribute field — a generic
value plus per-color values, any of which may be absent.  The definitions
of `getPieceMoveSpeedForColor` and `getPieceAnimationTimeScaleForColor`
are missing from the provided sources (the piece manager only imports
them), so their configuration shape is taken from spec §3
(AttributeConfig) and §4.1. -/
structure LayeredNum where
  generic : Option ℚ
  white : Option ℚ
  black : Option ℚ
deriving DecidableEq, Repr

/-- The per-color entry of a layered numeric field. -/
def colorVal (l : LayeredNum) (color : ColorName) : Option ℚ :=
  match color with
  | ColorName.white => l.white
  | ColorName.black => l.black

/-- Modelled from the spec: the four-level resolution order of §3 —
specific-color override → generic override → specific-color default →
generic default — yielding nothing when no level is configured (the
hard-coded fallback constants are applied by the in-source callers, which
test for a numeric result). -/
def resolveLayered (override dflt : LayeredNum) (color : ColorName) : Option ℚ :=
  match colorVal override color with
  | some v => some v
  | none =>
    match override.generic with
    | some v => some v
    | none =>
      match colorVal dflt color with
      | some v => some v
      | none => dflt.generic

/-- Modelled from the spec: the move-speed and animation-time-scale layers
of the piece-attributes document, whose in-repo accessors are not among
the provided sources. -/
structure PieceSpeedConfig where
  defaultsMoveSpeed : LayeredNum
  overridesMoveSpeed : PieceType → LayeredNum
  defaultsTimeScale : LayeredNum
  overridesTimeScale : PieceType → LayeredNum

/-- Modelled from the spec: `getPieceMoveSpeedForColor` (imported by the
piece manager from pieceAttributes, definition missing from the provided
sources) — layered lookup of the move-speed field, nothing when no
configuration is loaded. -/
def getPieceMoveSpeedForColor (currentConfig : Option PieceSpeedConfig)
    (type : PieceType) (color : ColorName) : Option ℚ :=
  currentConfig.bind
    (fun c => resolveLayered (c.overridesMoveSpeed type) c.defaultsMoveSpeed color)

/-- Modelled from the spec: `getPieceAnimationTimeScaleForColor` (imported
by the piece manager from pieceAttributes, definition missing from the
provided sources) — layered lookup of the animation-time-scale field,
nothing when no configuration is loaded. -/
def getPieceAnimationTimeScaleForColor (currentConfig : Option PieceSpeedConfig)
    (type : PieceType) (color : ColorName) : Option ℚ :=
  currentConfig.bind
    (fun c => resolveLayered (c.overridesTimeScale type) c.defaultsTimeScale color)

/-- `import.meta.env` composed with `Number.parseFloat` and the JS
finiteness test: an environment lookup yields the finite parsed number of
a variable when it is set and parseable and nothing otherwise (an unset
variable gives `parseFloat(raw ?? "") = NaN`, which every
`Number.isFinite` / `> 0` guard in the sources rejects). -/
abbrev EnvNum := String → Option ℚ

/-- moveSpeedEnvMap (piece manager, lines 227-234). -/
def moveSpeedEnvMap : PieceType → String
  | PieceType.p => "VITE_PIECE_MOVE_SPEED_PAWN"
  | PieceType.r => "VITE_PIECE_MOVE_SPEED_ROOK"
  | PieceType.n => "VITE_PIECE_MOVE_SPEED_KNIGHT"
  | PieceType.b => "VITE_PIECE_MOVE_SPEED_BISHOP"
  | PieceType.q => "VITE_PIECE_MOVE_SPEED_QUEEN"
  | PieceType.k => "VITE_PIECE_MOVE_SPEED_KING"

/-- getMoveSpeedForColor (piece manager, lines 236-245): configured speed
for the piece color when numeric, else the per-type environment variable
when finite, else the hard-coded 4. -/
def getMoveSpeedForColor (attrCfg : Option PieceSpeedConfig) (env : EnvNum)
    (type : PieceType) (color : Option Color) : ℚ :=
  let colorName : Option ColorName :=
    match color with
    | some Color.w => some ColorName.white
    | some Color.b => some ColorName.black
    | none => none
  let configSpeed : Option ℚ :=
    match colorName with
    | some cn => getPieceMoveSpeedForColor attrCfg type cn
    | none => none
  match configSpeed with
  | some s => s
  | none => (env (moveSpeedEnvMap type)).getD 4

/-- DEFAULT_ANIMATION_TIME_SCALE (piece manager, line 51). -/
def DEFAULT_ANIMATION_TIME_SCALE : ℚ := 1

/-- getAnimationTimeScale (piece manager, lines 251-264), taking the
entity's type and color directly: the base scale comes from
VITE_ANIMATION_TIME_SCALE when parsed positive (else 1), multiplied by
the configured per-piece time scale when that is positive. -/
def getAnimationTimeScale (attrCfg : Option PieceSpeedConfig) (env : EnvNum)
    (type : PieceType) (color : Color) : ℚ :=
  let baseScale : ℚ :=
    match env "VITE_ANIMATION_TIME_SCALE" with
    | some parsed =>
      if 0 < parsed then parsed else DEFAULT_ANIMATION_TIME_SCALE
    | none => DEFAULT_ANIMATION_TIME_SCALE
  let colorName : ColorName :=
    match color with
    | Color.w => ColorName.white
    | Color.b => ColorName.black
  match getPieceAnimationTimeScaleForColor attrCfg type colorName with
  | some configScale =>
    if 0 < configScale then baseScale * configScale else baseScale
  | none => baseScale

/-- A rotation request on an entity (setPieceRotation): either the lookAt
quaternion toward a world position with the height kept (rotateTowards),
or the quaternion built from the base yaw angle (finalizeMoveToIdle).
The quaternion values are opaque; each constructor records the data that
determines one. -/
inductive RotCmd where
  | faceWorld (x z : ℚ)
  | yaw (angle : ℚ)
deriving DecidableEq, Repr

/-- The choreographer-relevant slice of a PieceEntity: identity, color and
type, board coordinates, the world x/z position (exact at the discrete
event boundaries the claims quantify over), the discrete state, the
userData fields baseRotationY / firstMoveDone / moveToken, the pending
rotation request, the active clip, and the resolveAction table abstracted
as the duration in seconds of the action a clip name resolves to on this
entity (none = missing clip). -/
structure ChoreoPiece where
  id : String
  pcolor : Color
  ptype : PieceType
  file : ℤ
  rank : ℤ
  worldX : ℚ
  worldZ : ℚ
  pstate : PState
  baseRotationY : ℚ
  firstMoveDone : Bool
  moveToken : Option ℕ
  rotTarget : Option RotCmd
  activeClip : Option String
  actions : String → Option ℚ

/-- boardToWorld (board.ts, lines 84-89), x component with TILE_SIZE 1:
(file - 3.5).  The constant y component plays no role in the claims. -/
def boardToWorldX (file : ℤ) : ℚ := file - 7/2

/-- boardToWorld (board.ts, lines 84-89), z component: (rank - 3.5). -/
def boardToWorldZ (rank : ℤ) : ℚ := rank - 7/2

/-- slidingAttackers (piece manager, line 70): rook, bishop, queen. -/
def slidingAttackers : PieceType → Bool
  | PieceType.r | PieceType.b | PieceType.q => true
  | _ => false

/-- MoveStep (piece manager, lines 27-33). -/
structure MoveStep where
  atMs : ℚ
  clip : String
  speed : Option ℚ
  stopAtClipEnd : Bool
  loop : Bool
deriving DecidableEq, Repr

/-- A one-shot animation timer staged by scheduleSequence: fire offset,
step target and clip name. -/
structure ClipTimer where
  atMs : ℚ
  target : Target
  clip : String
deriving DecidableEq, Repr

/-- One iteration of the steps.forEach in scheduleSequence (piece
manager, lines 156-197), threading
(victimEndMs, sequenceEndMs, moveSteps, clipTimers).  An attacker step
with the move flag becomes a MoveStep and extends the sequence end; any
other step with a resolvable action is staged as a clip timer and extends
the end times by offset + duration·1000; a step whose action is missing
only extends the end times by its offset. -/
def scheduleStep (attacker victim : ChoreoPiece)
    (acc : ℚ × ℚ × List MoveStep × List ClipTimer)
    (step : AttackSequenceStep) : ℚ × ℚ × List MoveStep × List ClipTimer :=
  let (victimEndMs, sequenceEndMs, moveSteps, clipTimers) := acc
  if step.move = true ∧ step.target = Target.attacker then
    let durationMs := ((attacker.actions step.clip).map (fun d => d * 1000)).getD 0
    (victimEndMs, max sequenceEndMs (step.atMs + durationMs),
      moveSteps ++ [⟨step.atMs, step.clip, step.speed, true, false⟩], clipTimers)
  else
    let targetEntity := if step.target = Target.attacker then attacker else victim
    match targetEntity.actions step.clip with
    | none =>
      (if step.target = Target.victim then max victimEndMs step.atMs else victimEndMs,
        max sequenceEndMs step.atMs, moveSteps, clipTimers)
    | some duration =>
      let durationMs := duration * 1000
      (if step.target = Target.victim then max victimEndMs (step.atMs + durationMs)
        else victimEndMs,
        max sequenceEndMs (step.atMs + durationMs), moveSteps,
        clipTimers ++ [⟨step.atMs, step.target, step.clip⟩])

/-- scheduleSequence (piece manager, lines 143-208): fold the steps, then
— when a default move speed was supplied (the only in-source caller
always passes a number) — append the settling walk MoveStep at the
overall sequence end.  Returns victimEndMs with the staged move steps and
clip timers. -/
def scheduleSequence (steps : List AttackSequenceStep)
    (attacker victim : ChoreoPiece) (defaultMoveSpeed : Option ℚ) :
    ℚ × List MoveStep × List ClipTimer :=
  let folded := steps.foldl (scheduleStep attacker victim) (0, 0, [], [])
  let moveSteps :=
    match defaultMoveSpeed with
    | some speed => folded.2.2.1 ++ [⟨folded.2.1, "walk", some speed, false, true⟩]
    | none => folded.2.2.1
  (folded.1, moveSteps, folded.2.2.2)

/-- The spec formula for the victim end time: the maximum over
victim-targeted steps of (offset + resolved clip duration in ms), a
missing clip counting as duration zero. -/
def specVictimEndMs (steps : List AttackSequenceStep) (victim : ChoreoPiece) : ℚ :=
  ((steps.filter (fun s => s.target == Target.victim)).map
    (fun s => s.atMs + ((victim.actions s.clip).map (fun d => d * 1000)).getD 0)).foldl
    max 0

/-- What a pending motion's completion callback does (the closures passed
to setPieceMove or assigned to onMoveComplete in the piece manager). -/
inductive OnComplete where
  | nothing
  | finalizeIfMoving
  | preMoveDone (toFile toRank : ℤ)
deriving DecidableEq, Repr

/-- A pending linear motion (setPieceMove): world-space target, speed and
completion callback. -/
structure PendingMotion where
  targetX : ℚ
  targetZ : ℚ
  speed : ℚ
  onComplete : OnComplete
deriving DecidableEq, Repr

/-- The choreographer state of one in-flight move: the piecesBySquare
index (square name → entity id), the moving piece, the optional capture
victim, the piece's pending motion, and the observable timer schedule:
whether the deferred first-move timer is pending, the staged MoveSteps
and clip timers of the attack sequence, the staged stop timers (fire
delay, token) and the delay of the victim removal timer (none while no
attack sequence has started). -/
structure ChoreoWorld where
  bySquare : String → Option String
  piece : ChoreoPiece
  victim : Option ChoreoPiece
  pendingMotion : Option PendingMotion
  pendingFirstTimer : Bool
  scheduledMoveSteps : List MoveStep
  scheduledClipTimers : List ClipTimer
  scheduledStopTimers : List (ℚ × ℕ)
  victimRemovalDelay : Option ℚ

/-- JS Map.set on the square index, as a function update. -/
def mapSet (m : String → Option String) (key value : String) :
    String → Option String :=
  fun q => if q = key then some value else m q

/-- JS Map.delete on the square index. -/
def mapDelete (m : String → Option String) (key : String) :
    String → Option String :=
  fun q => if q = key then none else m q

/-- The static context of a move: the loaded attack-sequence
configuration, the (spec-modelled) speed/time-scale configuration and the
numeric environment. -/
structure Ctx where
  seqCfg : Option AttackSequencesConfig
  attrCfg : Option PieceSpeedConfig
  env : EnvNum

/-- transitionAction (piece manager, lines 72-96) at the discrete level:
when the clip resolves on the entity, its action becomes the active one
(cross-fade and loop configuration do not affect the claims); a missing
action leaves the entity untouched and counts as duration 0. -/
def transitionClip (p : ChoreoPiece) (clip : String) : ChoreoPiece :=
  match p.actions clip with
  | some _ => { p with activeClip := some clip }
  | none => p

/-- The setPieceBoardPos closure (movePieceEntity, lines 356-361): update
the piece's board coordinates and install it in the square index under
the new square name. -/
def setBoardPos (w : ChoreoWorld) (file rank : ℤ) : ChoreoWorld :=
  { w with
      piece := { w.piece with file := file, rank := rank }
      bySquare := mapSet w.bySquare (squareFromCoords file rank) w.piece.id }

/-- rotateTowards (piece manager, lines 266-278): request a lookAt
rotation toward the given world position, keeping the height. -/
def rotateTowardsWorld (p : ChoreoPiece) (x z : ℚ) : ChoreoPiece :=
  { p with rotTarget := some (RotCmd.faceWorld x z) }

/-- finalizeMoveToIdle (piece manager, lines 280-297): optionally request
the rotation back to the base yaw (baseRotationY is always set at entity
creation), transition to the idle clip, and enter the idle state. -/
def finalizeMoveToIdle (w : ChoreoWorld) (resetRotation : Bool) : ChoreoWorld :=
  let p := w.piece
  let p :=
    if resetRotation then { p with rotTarget := some (RotCmd.yaw p.baseRotationY) }
    else p
  let p := transitionClip p "idle"
  { w with piece := { p with pstate := PState.idle } }

/-- The applyMove closure (movePieceEntity, lines 362-383): rotate toward
the destination, resolve the speed (override or per-color move speed),
request the motion with a completion that finalizes to idle when still
moving, install the destination in the square index eagerly, enter the
moving state and start the walk clip (or the override clip). -/
def applyMove (ctx : Ctx) (w : ChoreoWorld) (toFile toRank : ℤ)
    (clipName : Option String) (speedOverride : Option ℚ) : ChoreoWorld :=
  let tx := boardToWorldX toFile
  let tz := boardToWorldZ toRank
  let p := rotateTowardsWorld w.piece tx tz
  let speed :=
    match speedOverride with
    | some s => s
    | none => getMoveSpeedForColor ctx.attrCfg ctx.env p.ptype (some p.pcolor)
  let w := { w with
      piece := p
      pendingMotion := some ⟨tx, tz, speed, OnComplete.finalizeIfMoving⟩ }
  let w := setBoardPos w toFile toRank
  let p := { w.piece with pstate := PState.moving }
  let p := transitionClip p ((clipName).getD "walk")
  { w with piece := p }

/-- The startAttackSequence closure (movePieceEntity, lines 387-455):
mark the attacker attacking and the victim dying, rotate each toward the
other, play the victim ready clip when available, resolve the sequence
steps (the in-source call passes the attacker color as a third argument
that the two-parameter getAttackSequence has no use for), schedule them,
stage the victim removal timer at max(victimEndMs, 300) ms after sequence
start, and — the staged move steps always end with the settling walk, so
they are never empty — install the attacker on the destination square
eagerly, leaving the MoveSteps to fire later through fireMoveStep. -/
def startAttackSequence (ctx : Ctx) (w : ChoreoWorld) (toFile toRank : ℤ) :
    ChoreoWorld :=
  match w.victim with
  | none => w
  | some victim =>
    let p := { w.piece with pstate := PState.attacking }
    let victim := { victim with pstate := PState.dying }
    let p := rotateTowardsWorld p victim.worldX victim.worldZ
    let victim := rotateTowardsWorld victim p.worldX p.worldZ
    let victim := transitionClip victim "ready"
    let steps := getAttackSequence ctx.seqCfg p.ptype victim.ptype
    let sched := scheduleSequence steps p victim
        (some (getMoveSpeedForColor ctx.attrCfg ctx.env p.ptype (some p.pcolor)))
    let removalDelay := max sched.1 300
    let w := { w with
        piece := p
        victim := some victim
        victimRemovalDelay := some removalDelay
        scheduledClipTimers := sched.2.2 }
    if sched.2.1 = [] then applyMove ctx w toFile toRank none none
    else { setBoardPos w toFile toRank with scheduledMoveSteps := sched.2.1 }

/-- The pre-move condition (movePieceEntity, lines 457-468): a sliding
attacker aligned with the victim on a rank, file or diagonal at Chebyshev
distance above 1. -/
def shouldPreMoveP (piece victim : ChoreoPiece) : Prop :=
  slidingAttackers piece.ptype = true
  ∧ (victim.file - piece.file = 0 ∨ victim.rank - piece.rank = 0
      ∨ (victim.file - piece.file).natAbs = (victim.rank - piece.rank).natAbs)
  ∧ 1 < max (victim.file - piece.file).natAbs (victim.rank - piece.rank).natAbs
  ∧ (victim.file - piece.file ≠ 0 ∨ victim.rank - piece.rank ≠ 0)

instance (piece victim : ChoreoPiece) : Decidable (shouldPreMoveP piece victim) := by
  unfold shouldPreMoveP
  infer_instance

/-- The condition under which the one-time first-move clip defers
startPreMove behind a timer (movePieceEntity, lines 498-513). -/
def firstClipDefers (piece : ChoreoPiece) : Prop :=
  slidingAttackers piece.ptype = true ∧ piece.firstMoveDone = false
  ∧ (piece.actions "first").isSome = true

instance (piece : ChoreoPiece) : Decidable (firstClipDefers piece) := by
  unfold firstClipDefers
  infer_instance

/-- The startPreMove closure (movePieceEntity, lines 469-496), with the
alignment analysis of lines 457-468 (computed at issue time and unchanged
when the closure runs, since nothing moves either piece in between): if
the pre-move condition holds, step to the square next to the victim along
the attack line — board position eagerly, walking clip, motion request
whose completion installs the destination and starts the attack sequence;
otherwise start the attack sequence at once. -/
def startPreMove (ctx : Ctx) (w : ChoreoWorld) (toFile toRank : ℤ) : ChoreoWorld :=
  match w.victim with
  | none => w
  | some victim =>
    if shouldPreMoveP w.piece victim then
      let stepFile := (victim.file - w.piece.file).sign
      let stepRank := (victim.rank - w.piece.rank).sign
      let preFile := toFile - stepFile
      let preRank := toRank - stepRank
      let preX := boardToWorldX preFile
      let preZ := boardToWorldZ preRank
      let w := setBoardPos w preFile preRank
      let p := { w.piece with pstate := PState.moving }
      let p := rotateTowardsWorld p preX preZ
      let p := transitionClip p "walk"
      let speed := getMoveSpeedForColor ctx.attrCfg ctx.env p.ptype (some p.pcolor)
      { w with
          piece := p
          pendingMotion := some ⟨preX, preZ, speed, OnComplete.preMoveDone toFile toRank⟩ }
    else startAttackSequence ctx w toFile toRank

/-- movePieceEntity (piece manager, lines 340-520): delete the source
square entry and, on capture, the destination square entry (the victim)
at issue time; then plain relocation (applyMove) without a capture
target, or the capture path: a sliding attacker that has not yet spent
its one-time first-move clip marks it spent and, when the clip resolves,
defers startPreMove behind a timer; otherwise startPreMove runs at
once. -/
def movePieceEntity (ctx : Ctx) (bySquare : String → Option String)
    (piece : ChoreoPiece) (toFile toRank : ℤ)
    (captureTarget : Option ChoreoPiece) : ChoreoWorld :=
  let fromSquare := squareFromCoords piece.file piece.rank
  let toSquare := squareFromCoords toFile toRank
  let idx := mapDelete bySquare fromSquare
  let idx := if captureTarget.isSome then mapDelete idx toSquare else idx
  let w : ChoreoWorld := ⟨idx, piece, captureTarget, none, false, [], [], [], none⟩
  match captureTarget with
  | none => applyMove ctx w toFile toRank none none
  | some _ =>
    if slidingAttackers piece.ptype = true ∧ piece.firstMoveDone = false then
      let p := { piece with firstMoveDone := true }
      let w := { w with piece := p }
      match p.actions "first" with
      | some _ =>
        let p := { p with activeClip := some "first" }
        { w with piece := p, pendingFirstTimer := true }
      | none => startPreMove ctx w toFile toRank
    else startPreMove ctx w toFile toRank

/-- The deferred startPreMove timer staged behind the first-move clip:
fires after the clip duration; a no-op on worlds that staged no such
timer. -/
def fireFirstTimer (ctx : Ctx) (w : ChoreoWorld) (toFile toRank : ℤ) : ChoreoWorld :=
  if w.pendingFirstTimer then
    startPreMove ctx { w with pendingFirstTimer := false } toFile toRank
  else w

/-- Completion of the pending motion, as detected by the interpolator on
arrival: the world position snaps to the target, the motion clears, and
the stored completion callback runs — the plain-move and MoveStep
completions finalize to idle when the piece is still moving
(movePieceEntity lines 378-382 and 429-433), the pre-move completion
installs the destination square and starts the attack sequence (lines
492-495). -/
def settleMotion (ctx : Ctx) (w : ChoreoWorld) : ChoreoWorld :=
  match w.pendingMotion with
  | none => w
  | some pm =>
    let p := { w.piece with worldX := pm.targetX, worldZ := pm.targetZ }
    let w := { w with piece := p, pendingMotion := none }
    match pm.onComplete with
    | OnComplete.nothing => w
    | OnComplete.finalizeIfMoving =>
      if w.piece.pstate = PState.moving then finalizeMoveToIdle w true else w
    | OnComplete.preMoveDone toFile toRank =>
      startAttackSequence ctx (setBoardPos w toFile toRank) toFile toRank

/-- The per-MoveStep timer body (movePieceEntity, lines 419-452): resolve
the step clip, rotate toward the destination for looping steps, request
the motion to the destination with a finalize-on-completion callback,
enter the moving state, start the clip when it resolves, tag the piece
with the next per-entity move token (previous token + 1, or 1 when the
piece was never tagged), and stage a stop timer carrying that token for
steps that stop at clip end. -/
def fireMoveStep (ctx : Ctx) (w : ChoreoWorld) (step : MoveStep)
    (toFile toRank : ℤ) : ChoreoWorld :=
  let tx := boardToWorldX toFile
  let tz := boardToWorldZ toRank
  let action := w.piece.actions step.clip
  let speed :=
    match step.speed with
    | some s => s
    | none => getMoveSpeedForColor ctx.attrCfg ctx.env w.piece.ptype (some w.piece.pcolor)
  let p := if step.loop then rotateTowardsWorld w.piece tx tz else w.piece
  let p := { p with pstate := PState.moving }
  let p :=
    match action with
    | some _ => { p with activeClip := some step.clip }
    | none => p
  let durationMs := (action.map (fun d => d * 1000)).getD 0
  let token :=
    match p.moveToken with
    | some t => t + 1
    | none => 1
  let p := { p with moveToken := some token }
  { w with
      piece := p
      pendingMotion := some ⟨tx, tz, speed, OnComplete.finalizeIfMoving⟩
      scheduledStopTimers :=
        w.scheduledStopTimers
          ++ (if step.stopAtClipEnd then [(durationMs, token)] else []) }

/-- The stop-at-clip-end timer body (movePieceEntity, lines 445-450): a
stale token (a newer motion was issued for the entity since the timer was
staged) or a non-moving state makes it a strict no-op; otherwise it stops
the motion and finalizes to idle without resetting the rotation. -/
def fireStopTimer (w : ChoreoWorld) (token : ℕ) : ChoreoWorld :=
  if w.piece.moveToken ≠ some token then w
  else if w.piece.pstate ≠ PState.moving then w
  else finalizeMoveToIdle { w with pendingMotion := none } false

/-- The white rook of the concrete capture scenarios: on a1, first move
already spent, no resolvable clips. -/
def rookEntity : ChoreoPiece :=
  ⟨"wr-0", Color.w, PieceType.r, 0, 0, boardToWorldX 0, boardToWorldZ 0,
    PState.idle, 0, true, none, none, none, fun _ => none⟩

/-- The black pawn victim of the concrete capture scenarios, on a4. -/
def pawnVictim : ChoreoPiece :=
  ⟨"bp-1", Color.b, PieceType.p, 0, 3, boardToWorldX 0, boardToWorldZ 3,
    PState.idle, 0, false, none, none, none, fun _ => none⟩

/-- Initial square index of the concrete capture scenarios: the rook on
a1, the pawn on a4. -/
def idxRookPawn : String → Option String :=
  fun sq =>
    if sq = "a1" then some "wr-0"
    else if sq = "a4" then some "bp-1"
    else none

/-- Empty context: no configuration loaded, environment unset. -/
def emptyCtx : Ctx := ⟨none, none, fun _ => none⟩

/-- A concrete single-move world used by the C4 and C9 witnesses. -/
def plainWorld : ChoreoWorld :=
  ⟨idxRookPawn, rookEntity, some pawnVictim, none, false, [], [], [], none⟩

/-- The decimal rendering of a natural number — the JS number→string
conversion used by the entity-id template literal. -/
def natToDec (n : ℕ) : List Char :=
  if h : n < 10 then [Char.ofNat (48 + n)]
  else natToDec (n / 10) ++ [Char.ofNat (48 + n % 10)]
termination_by n
decreasing_by
  exact Nat.div_lt_self (by omega) (by omega)

/-- The numeric value of a digit string (left inverse of natToDec). -/
def decVal (l : List Char) : ℕ :=
  l.foldl (fun a c => 10 * a + (c.toNat - 48)) 0

/-- The one-character color tag of the entity id. -/
def colorChar : Color → Char
  | Color.w => 'w'
  | Color.b => 'b'

/-- The one-character type tag of the entity id. -/
def typeChar : PieceType → Char
  | PieceType.p => 'p'
  | PieceType.r => 'r'
  | PieceType.n => 'n'
  | PieceType.b => 'b'
  | PieceType.q => 'q'
  | PieceType.k => 'k'

/-- The entity id built in createPieceEntity (pieceEntities.ts, line 378):
the template literal `color + type + "-" + entityCounter`. -/
def pieceIdString (c : Color) (t : PieceType) (entityCounter : ℕ) : String :=
  String.mk (colorChar c :: typeChar t :: '-' :: natToDec entityCounter)

/-- The creation-relevant slice of a created entity. -/
structure EntityRec where
  id : String
  ecolor : Color
  etype : PieceType
  file : ℤ
  rank : ℤ

/-- createPieceEntity (pieceEntities.ts, lines 297-399) restricted to the
identity-relevant effects: the new entity's id embeds the current
module-level entityCounter, and the counter increments afterwards.  The
counter is threaded explicitly instead of being module state. -/
def createPieceEntityE (entityCounter : ℕ) (c : Color) (t : PieceType)
    (file rank : ℤ) : EntityRec × ℕ :=
  (⟨pieceIdString c t entityCounter, c, t, file, rank⟩, entityCounter + 1)

/-- A run of createPieceEntity calls threading the counter. -/
def createRun (entityCounter : ℕ) :
    List (Color × PieceType × ℤ × ℤ) → List EntityRec
  | [] => []
  | (c, t, f, r) :: rest =>
    let made := createPieceEntityE entityCounter c t f r
    made.1 :: createRun made.2 rest

lemma coordsFromSquare_squareFromCoords (file rank : ℤ)
    (hf0 : 0 ≤ file) (hf7 : file ≤ 7) (hr0 : 0 ≤ rank) (hr7 : rank ≤ 7) :
    coordsFromSquare (squareFromCoords file rank) = some (file, rank) := by
  interval_cases file <;> interval_cases rank <;> decide

lemma squareFromCoords_injOn (f1 r1 f2 r2 : ℤ)
    (hf1 : 0 ≤ f1 ∧ f1 ≤ 7) (hr1 : 0 ≤ r1 ∧ r1 ≤ 7)
    (hf2 : 0 ≤ f2 ∧ f2 ≤ 7) (hr2 : 0 ≤ r2 ∧ r2 ≤ 7)
    (hne : (f1, r1) ≠ (f2, r2)) :
    squareFromCoords f1 r1 ≠ squareFromCoords f2 r2 := by
  intro h
  apply hne
  have h1 := coordsFromSquare_squareFromCoords f1 r1 hf1.1 hf1.2 hr1.1 hr1.2
  have h2 := coordsFromSquare_squareFromCoords f2 r2 hf2.1 hf2.2 hr2.1 hr2.2
  rw [h, h2] at h1
  exact (Option.some.injEq _ _).mp h1.symm

/-- C8: for all (file, rank) in [0,7]×[0,7],
coordsFromSquare (squareFromCoords file rank) = (file, rank): the
coordinate-to-square-name mapping round-trips exactly, so it is a
bijection between the board coordinates and the names a1 through h8. -/
theorem coords_square_roundTrip (file rank : ℤ)
    (hf0 : 0 ≤ file) (hf7 : file ≤ 7) (hr0 : 0 ≤ rank) (hr7 : rank ≤ 7) :
    coordsFromSquare (squareFromCoords file rank) = some (file, rank) :=
  coordsFromSquare_squareFromCoords file rank hf0 hf7 hr0 hr7

/-- Witness for C8 at file 4, rank 6 (square "e7"). -/
theorem coords_square_roundTrip_witness :
    coordsFromSquare (squareFromCoords 4 6) = some (4, 6) :=
  coords_square_roundTrip 4 6 (by decide) (by decide) (by decide) (by decide)

lemma Vec3.length_nonneg (v : Vec3) : 0 ≤ v.length :=
  Real.sqrt_nonneg _

lemma Vec3.length_smul (c : ℝ) (v : Vec3) :
    (Vec3.smul c v).length = |c| * v.length := by
  unfold Vec3.length Vec3.smul
  simp only
  rw [show c * v.x * (c * v.x) + c * v.y * (c * v.y) + c * v.z * (c * v.z)
        = c ^ 2 * (v.x * v.x + v.y * v.y + v.z * v.z) by ring]
  rw [Real.sqrt_mul (sq_nonneg c), Real.sqrt_sq_eq_abs]

lemma Vec3.smul_comp (a b : ℝ) (v : Vec3) :
    Vec3.smul a (Vec3.smul b v) = Vec3.smul (a * b) v := by
  unfold Vec3.smul
  ext <;> dsimp <;> ring

lemma Vec3.add_sub_cancelLeft (a w : Vec3) : Vec3.sub (Vec3.add a w) a = w := by
  unfold Vec3.sub Vec3.add
  ext <;> dsimp <;> ring

lemma Vec3.sub_add_scaled (t p : Vec3) (c : ℝ) :
    Vec3.sub t (Vec3.add p (Vec3.smul c (Vec3.sub t p)))
      = Vec3.smul (1 - c) (Vec3.sub t p) := by
  unfold Vec3.sub Vec3.add Vec3.smul
  ext <;> dsimp <;> ring

/-- C1: for an entity with an active position target and (positive) speed
and a frame update with nonnegative delta, the applied displacement has
length min(remaining distance, speed·dt) along the line to the target —
the position never overshoots.  When the remaining distance is at most
speed·dt the position is set exactly to the target, the target is cleared,
the completion callback is returned as fired exactly once and cleared (a
further update fires nothing); otherwise the target and callback survive
and the remaining distance decreases by exactly speed·dt. -/
theorem updateEntityMotion_min_displacement
    (e : MotionEntity) (target : Vec3) (speed deltaTime : ℝ)
    (ht : e.moveTarget = some target) (hs : e.moveSpeed = some speed)
    (hspeed : 0 < speed) (hdt : 0 ≤ deltaTime) :
    (Vec3.sub (updateEntityMotion e deltaTime).1.position e.position).length
        = min (Vec3.sub target e.position).length (speed * deltaTime)
    ∧ ((Vec3.sub target e.position).length ≤ speed * deltaTime →
        (updateEntityMotion e deltaTime).1.position = target
        ∧ (updateEntityMotion e deltaTime).1.moveTarget = none
        ∧ (updateEntityMotion e deltaTime).2 = e.onMoveComplete
        ∧ (updateEntityMotion e deltaTime).1.onMoveComplete = none
        ∧ ∀ dt2, (updateEntityMotion (updateEntityMotion e deltaTime).1 dt2).2 = none)
    ∧ (speed * deltaTime < (Vec3.sub target e.position).length →
        (updateEntityMotion e deltaTime).1.moveTarget = some target
        ∧ (updateEntityMotion e deltaTime).2 = none
        ∧ (Vec3.sub target (updateEntityMotion e deltaTime).1.position).length
            = (Vec3.sub target e.position).length - speed * deltaTime) := by
  have hsne : speed ≠ 0 := ne_of_gt hspeed
  simp only [updateEntityMotion, ht, hs, if_neg hsne]
  set toT := Vec3.sub target e.position with htoT
  set dist := toT.length with hdist
  by_cases harr : dist ≤ speed * deltaTime
  · simp only [if_pos harr]
    refine ⟨?_, fun _ => ?_, fun hlt => absurd harr (not_le.mpr hlt)⟩
    · rw [min_eq_left harr]
    · refine ⟨by trivial, by trivial, by trivial, by trivial, fun dt2 => by trivial⟩
  · simp only [if_neg harr]
    have hlt : speed * deltaTime < dist := not_le.mp harr
    have hsdt : 0 ≤ speed * deltaTime := mul_nonneg hspeed.le hdt
    have hdpos : 0 < dist := lt_of_le_of_lt hsdt hlt
    have hdne : dist ≠ 0 := ne_of_gt hdpos
    have hnorm : toT.normalize = Vec3.smul (1 / dist) toT := by
      unfold Vec3.normalize
      rw [← hdist, if_neg hdne]
    refine ⟨?_, fun hle => absurd hle harr, fun _ => ⟨by trivial, by trivial, ?_⟩⟩
    · rw [Vec3.add_sub_cancelLeft, hnorm, Vec3.smul_comp, Vec3.length_smul, ← hdist]
      rw [abs_of_nonneg (by positivity), min_eq_right hlt.le]
      field_simp
    · rw [hnorm, Vec3.smul_comp, Vec3.sub_add_scaled, Vec3.length_smul, ← hdist]
      have hfrac : speed * deltaTime * (1 / dist) < 1 := by
        rw [mul_one_div]
        exact (div_lt_one hdpos).mpr hlt
      rw [abs_of_nonneg (by linarith)]
      field_simp

/-- Witness for C1: the concrete entity at the origin moving to (3,0,0) at
speed 1 with dt = 5 satisfies the hypotheses and the conclusion. -/
theorem updateEntityMotion_min_displacement_witness :
    motionWitnessEntity.moveTarget = some ⟨3, 0, 0⟩
    ∧ motionWitnessEntity.moveSpeed = some 1
    ∧ (0:ℝ) < 1 ∧ (0:ℝ) ≤ 5
    ∧ ((Vec3.sub (updateEntityMotion motionWitnessEntity 5).1.position
          motionWitnessEntity.position).length
        = min (Vec3.sub ⟨3, 0, 0⟩ motionWitnessEntity.position).length (1 * 5)
      ∧ ((Vec3.sub ⟨3, 0, 0⟩ motionWitnessEntity.position).length ≤ 1 * 5 →
          (updateEntityMotion motionWitnessEntity 5).1.position = ⟨3, 0, 0⟩
          ∧ (updateEntityMotion motionWitnessEntity 5).1.moveTarget = none
          ∧ (updateEntityMotion motionWitnessEntity 5).2
              = motionWitnessEntity.onMoveComplete
          ∧ (updateEntityMotion motionWitnessEntity 5).1.onMoveComplete = none
          ∧ ∀ dt2,
              (updateEntityMotion
                (updateEntityMotion motionWitnessEntity 5).1 dt2).2 = none)
      ∧ (1 * 5 < (Vec3.sub ⟨3, 0, 0⟩ motionWitnessEntity.position).length →
          (updateEntityMotion motionWitnessEntity 5).1.moveTarget = some ⟨3, 0, 0⟩
          ∧ (updateEntityMotion motionWitnessEntity 5).2 = none
          ∧ (Vec3.sub ⟨3, 0, 0⟩
              (updateEntityMotion motionWitnessEntity 5).1.position).length
            = (Vec3.sub ⟨3, 0, 0⟩ motionWitnessEntity.position).length - 1 * 5)) :=
  ⟨rfl, rfl, one_pos, by norm_num,
    updateEntityMotion_min_displacement motionWitnessEntity
      ⟨3, 0, 0⟩ 1 5 rfl rfl one_pos (by norm_num)⟩

/-- C6: evaluation of getAttackSequence at the failing input.  The
resolver has no attacker-color parameter: with a rook→pawn override and
an empty generic default configured it returns that override — the same
list for a white and a black attacker since no color is consulted —
rather than any color-specific table first; with no configuration loaded
it returns the empty list and never fails. -/
theorem getAttackSequence_no_color_dimension :
    getAttackSequence (some seqCfgRookPawn) PieceType.r PieceType.p = [strikeStep]
    ∧ (some seqCfgRookPawn).bind (fun c => c.defaults) = some []
    ∧ getAttackSequence none PieceType.r PieceType.p = [] :=
  ⟨rfl, rfl, rfl⟩

/-- C7: with no configuration loaded and an empty environment, every
attribute resolver still returns its usable hard-coded default for every
piece type and color: scale 0.8, move speed 4, animation time scale 1. -/
theorem resolvers_default_without_config (type : PieceType) (color : ColorName)
    (c : Color) :
    getPieceScaleForColor none type color = 0.8
    ∧ getMoveSpeedForColor none (fun _ => none) type (some c) = 4
    ∧ getAnimationTimeScale none (fun _ => none) type c = 1 := by
  refine ⟨rfl, ?_, rfl⟩
  cases c <;> rfl

@[simp]
lemma transitionClip_pstate (p : ChoreoPiece) (clip : String) :
    (transitionClip p clip).pstate = p.pstate := by
  unfold transitionClip
  split <;> rfl

@[simp]
lemma transitionClip_rotTarget (p : ChoreoPiece) (clip : String) :
    (transitionClip p clip).rotTarget = p.rotTarget := by
  unfold transitionClip
  split <;> rfl

@[simp]
lemma transitionClip_id (p : ChoreoPiece) (clip : String) :
    (transitionClip p clip).id = p.id := by
  unfold transitionClip
  split <;> rfl

@[simp]
lemma transitionClip_baseRotationY (p : ChoreoPiece) (clip : String) :
    (transitionClip p clip).baseRotationY = p.baseRotationY := by
  unfold transitionClip
  split <;> rfl

@[simp]
lemma transitionClip_moveToken (p : ChoreoPiece) (clip : String) :
    (transitionClip p clip).moveToken = p.moveToken := by
  unfold transitionClip
  split <;> rfl

@[simp]
lemma transitionClip_actions (p : ChoreoPiece) (clip : String) :
    (transitionClip p clip).actions = p.actions := by
  unfold transitionClip
  split <;> rfl

@[simp]
lemma transitionClip_ptype (p : ChoreoPiece) (clip : String) :
    (transitionClip p clip).ptype = p.ptype := by
  unfold transitionClip
  split <;> rfl

@[simp]
lemma transitionClip_pcolor (p : ChoreoPiece) (clip : String) :
    (transitionClip p clip).pcolor = p.pcolor := by
  unfold transitionClip
  split <;> rfl

@[simp]
lemma transitionClip_file (p : ChoreoPiece) (clip : String) :
    (transitionClip p clip).file = p.file := by
  unfold transitionClip
  split <;> rfl

@[simp]
lemma transitionClip_rank (p : ChoreoPiece) (clip : String) :
    (transitionClip p clip).rank = p.rank := by
  unfold transitionClip
  split <;> rfl

/-- C2: a non-capturing move issued through the choreographer updates the
square index eagerly — already at issue time, while the motion is still
pending, the source square is unoccupied and the destination square maps
to the moved entity, which is in the moving state — and once the motion
settles the entity is idle with its rotation target restored to its base
yaw orientation. -/
theorem movePieceEntity_plain_relocation (ctx : Ctx)
    (idx0 : String → Option String) (piece : ChoreoPiece) (toFile toRank : ℤ)
    (hf0 : 0 ≤ piece.file) (hf7 : piece.file ≤ 7)
    (hr0 : 0 ≤ piece.rank) (hr7 : piece.rank ≤ 7)
    (ht0 : 0 ≤ toFile) (ht7 : toFile ≤ 7) (hk0 : 0 ≤ toRank) (hk7 : toRank ≤ 7)
    (hne : (piece.file, piece.rank) ≠ (toFile, toRank)) :
    (movePieceEntity ctx idx0 piece toFile toRank none).bySquare
        (squareFromCoords piece.file piece.rank) = none
    ∧ (movePieceEntity ctx idx0 piece toFile toRank none).bySquare
        (squareFromCoords toFile toRank) = some piece.id
    ∧ (movePieceEntity ctx idx0 piece toFile toRank none).piece.pstate
        = PState.moving
    ∧ ((movePieceEntity ctx idx0 piece toFile toRank none).pendingMotion.map
        (fun pm => pm.onComplete)) = some OnComplete.finalizeIfMoving
    ∧ (settleMotion ctx
        (movePieceEntity ctx idx0 piece toFile toRank none)).piece.pstate
        = PState.idle
    ∧ (settleMotion ctx
        (movePieceEntity ctx idx0 piece toFile toRank none)).piece.rotTarget
        = some (RotCmd.yaw piece.baseRotationY) := by
  have hsq : squareFromCoords piece.file piece.rank ≠ squareFromCoords toFile toRank :=
    squareFromCoords_injOn _ _ _ _ ⟨hf0, hf7⟩ ⟨hr0, hr7⟩ ⟨ht0, ht7⟩ ⟨hk0, hk7⟩ hne
  simp [movePieceEntity, applyMove, setBoardPos, rotateTowardsWorld, mapSet,
    mapDelete, settleMotion, finalizeMoveToIdle, hsq]

lemma mapSet_absent {m : String → Option String} {k v vid : String}
    (hv : v ≠ vid) (h : ∀ sq, m sq ≠ some vid) :
    ∀ sq, mapSet m k v sq ≠ some vid := by
  intro sq
  unfold mapSet
  split
  · intro hc
    exact hv (Option.some.inj hc)
  · exact h sq

lemma applyMove_absent (ctx : Ctx) (w : ChoreoWorld) (toFile toRank : ℤ)
    (clipName : Option String) (speedOverride : Option ℚ) {vid : String}
    (hpid : w.piece.id ≠ vid) (h : ∀ sq, w.bySquare sq ≠ some vid) :
    ∀ sq, (applyMove ctx w toFile toRank clipName speedOverride).bySquare sq
      ≠ some vid := by
  intro sq
  exact mapSet_absent hpid h sq

lemma startAttackSequence_absent (ctx : Ctx) (w : ChoreoWorld) (toFile toRank : ℤ)
    {vid : String} (hpid : w.piece.id ≠ vid)
    (h : ∀ sq, w.bySquare sq ≠ some vid) :
    ∀ sq, (startAttackSequence ctx w toFile toRank).bySquare sq ≠ some vid := by
  unfold startAttackSequence
  cases hv : w.victim with
  | none => exact h
  | some v =>
    simp only
    split
    · exact applyMove_absent ctx _ toFile toRank none none hpid h
    · intro sq
      exact mapSet_absent hpid h sq

lemma startPreMove_absent (ctx : Ctx) (w : ChoreoWorld) (toFile toRank : ℤ)
    {vid : String} (hpid : w.piece.id ≠ vid)
    (h : ∀ sq, w.bySquare sq ≠ some vid) :
    ∀ sq, (startPreMove ctx w toFile toRank).bySquare sq ≠ some vid := by
  unfold startPreMove
  cases hv : w.victim with
  | none => exact h
  | some v =>
    simp only
    split
    · intro sq
      exact mapSet_absent hpid h sq
    · exact startAttackSequence_absent ctx w toFile toRank hpid h

lemma startAttackSequence_dest (ctx : Ctx) (w : ChoreoWorld) (toFile toRank : ℤ)
    (v : ChoreoPiece) (hv : w.victim = some v) :
    (startAttackSequence ctx w toFile toRank).bySquare
      (squareFromCoords toFile toRank) = some w.piece.id := by
  unfold startAttackSequence
  simp only [hv]
  split
  · show mapSet _ _ _ _ = _
    simp [mapSet, rotateTowardsWorld]
  · show mapSet _ _ _ _ = _
    simp [mapSet, rotateTowardsWorld]

lemma startPreMove_noPre_dest (ctx : Ctx) (w : ChoreoWorld) (toFile toRank : ℤ)
    (v : ChoreoPiece) (hv : w.victim = some v)
    (hnp : ¬ shouldPreMoveP w.piece v) :
    (startPreMove ctx w toFile toRank).bySquare (squareFromCoords toFile toRank)
      = some w.piece.id := by
  unfold startPreMove
  simp only [hv, if_neg hnp]
  exact startAttackSequence_dest ctx w toFile toRank v hv

lemma scheduleFold_victim (attacker victim : ChoreoPiece)
    (steps : List AttackSequenceStep) (acc : ℚ × ℚ × List MoveStep × List ClipTimer) :
    (steps.foldl (scheduleStep attacker victim) acc).1
      = ((steps.filter (fun s => s.target == Target.victim)).map
          (fun s => s.atMs + ((victim.actions s.clip).map (fun d => d * 1000)).getD 0)).foldl
          (fun m x => max m x) acc.1 := by
  induction steps generalizing acc with
  | nil => rfl
  | cons s rest ih =>
    obtain ⟨ve, se, ms, ct⟩ := acc
    rw [List.foldl_cons, ih]
    by_cases hmv : s.move = true ∧ s.target = Target.attacker
    · have hfilter : (s.target == Target.victim) = false := by
        rw [hmv.2]
        rfl
      rw [List.filter_cons, hfilter]
      simp only [Bool.false_eq_true, if_false]
      congr 1
      simp [scheduleStep, hmv]
    · rcases htgt : s.target with h | h
      · have hfilter : (s.target == Target.victim) = false := by
          rw [htgt]
          rfl
        rw [List.filter_cons, hfilter]
        simp only [Bool.false_eq_true, if_false]
        congr 1
        cases hact : attacker.actions s.clip <;>
          simp [scheduleStep, hmv, htgt, hact] <;>
          split <;> rfl
      · have hfilter : (s.target == Target.victim) = true := by
          rw [htgt]
          rfl
        rw [List.filter_cons, hfilter]
        simp only [if_true, List.map_cons, List.foldl_cons]
        congr 1
        cases hact : victim.actions s.clip <;>
          simp [scheduleStep, hmv, htgt, hact]

lemma scheduleSequence_victimEnd (steps : List AttackSequenceStep)
    (attacker victim : ChoreoPiece) (defaultMoveSpeed : Option ℚ) :
    (scheduleSequence steps attacker victim defaultMoveSpeed).1
      = specVictimEndMs steps victim := by
  show (List.foldl (scheduleStep attacker victim) (0, 0, [], []) steps).1 = _
  rw [scheduleFold_victim]
  rfl

lemma specVictimEndMs_congr (steps : List AttackSequenceStep)
    (v1 v2 : ChoreoPiece) (h : v1.actions = v2.actions) :
    specVictimEndMs steps v1 = specVictimEndMs steps v2 := by
  unfold specVictimEndMs
  rw [h]

lemma startAttackSequence_removalDelay (ctx : Ctx) (w : ChoreoWorld)
    (toFile toRank : ℤ) (v : ChoreoPiece) (hv : w.victim = some v) :
    (startAttackSequence ctx w toFile toRank).victimRemovalDelay
      = some (max (specVictimEndMs
          (getAttackSequence ctx.seqCfg w.piece.ptype v.ptype) v) 300) := by
  unfold startAttackSequence
  simp only [hv]
  split <;>
  · show some (max (scheduleSequence _ _ _ _).1 300) = _
    rw [scheduleSequence_victimEnd]
    rw [specVictimEndMs_congr _ _ v
      (by simp [transitionClip_actions, rotateTowardsWorld])]
    simp [rotateTowardsWorld]

/-- C4: the victim scene detachment and store removal timer is staged at
exactly max(victim end time, 300 ms minimum grace) milliseconds after
sequence start and never sooner, where the victim end time computed by
the scheduleSequence fold is exactly the maximum over victim-targeted
steps of (step offset + resolved clip duration), a missing clip counting
as duration zero. -/
theorem victim_removal_schedule (steps : List AttackSequenceStep)
    (attacker victim : ChoreoPiece) (dms : Option ℚ)
    (ctx : Ctx) (w : ChoreoWorld) (toFile toRank : ℤ) (v : ChoreoPiece)
    (hv : w.victim = some v) :
    (scheduleSequence steps attacker victim dms).1 = specVictimEndMs steps victim
    ∧ (startAttackSequence ctx w toFile toRank).victimRemovalDelay
        = some (max (specVictimEndMs
            (getAttackSequence ctx.seqCfg w.piece.ptype v.ptype) v) 300)
    ∧ ∀ d, (startAttackSequence ctx w toFile toRank).victimRemovalDelay = some d →
        specVictimEndMs (getAttackSequence ctx.seqCfg w.piece.ptype v.ptype) v ≤ d
        ∧ (300:ℚ) ≤ d := by
  refine ⟨scheduleSequence_victimEnd steps attacker victim dms,
    startAttackSequence_removalDelay ctx w toFile toRank v hv, ?_⟩
  intro d hd
  rw [startAttackSequence_removalDelay ctx w toFile toRank v hv] at hd
  have hvd := Option.some.inj hd
  rw [← hvd]
  exact ⟨le_max_left _ _, le_max_right _ _⟩

/-- Witness for C4 at a concrete world: the rook attacking the pawn with
no configuration loaded. -/
theorem victim_removal_schedule_witness :
    plainWorld.victim = some pawnVictim
    ∧ ((scheduleSequence [] rookEntity pawnVictim none).1
        = specVictimEndMs [] pawnVictim
      ∧ (startAttackSequence emptyCtx plainWorld 0 3).victimRemovalDelay
          = some (max (specVictimEndMs
              (getAttackSequence emptyCtx.seqCfg plainWorld.piece.ptype
                pawnVictim.ptype) pawnVictim) 300)
      ∧ ∀ d, (startAttackSequence emptyCtx plainWorld 0 3).victimRemovalDelay
            = some d →
          specVictimEndMs (getAttackSequence emptyCtx.seqCfg
            plainWorld.piece.ptype pawnVictim.ptype) pawnVictim ≤ d
          ∧ (300:ℚ) ≤ d) :=
  ⟨rfl, victim_removal_schedule [] rookEntity pawnVictim none emptyCtx plainWorld
    0 3 pawnVictim rfl⟩

lemma pre_square_bounds (pf vf tf : ℤ)
    (hpf0 : 0 ≤ pf) (hpf7 : pf ≤ 7) (htf0 : 0 ≤ tf) (htf7 : tf ≤ 7)
    (hv : vf = tf) :
    0 ≤ tf - (vf - pf).sign ∧ tf - (vf - pf).sign ≤ 7 := by
  rcases lt_trichotomy (vf - pf) 0 with h | h | h
  · rw [Int.sign_eq_neg_one_of_neg h]
    omega
  · rw [h, Int.sign_zero]
    omega
  · rw [Int.sign_eq_one_of_pos h]
    omega

lemma movePieceEntity_capture_unfold (ctx : Ctx) (idx0 : String → Option String)
    (piece victim : ChoreoPiece) (toFile toRank : ℤ) :
    movePieceEntity ctx idx0 piece toFile toRank (some victim)
      = (let idx := mapDelete (mapDelete idx0
            (squareFromCoords piece.file piece.rank))
            (squareFromCoords toFile toRank)
         let w : ChoreoWorld := ⟨idx, piece, some victim, none, false, [], [], [], none⟩
         if slidingAttackers piece.ptype = true ∧ piece.firstMoveDone = false then
           let p := { piece with firstMoveDone := true }
           let w := { w with piece := p }
           match p.actions "first" with
           | some _ =>
             let p2 := { p with activeClip := some "first" }
             { w with piece := p2, pendingFirstTimer := true }
           | none => startPreMove ctx w toFile toRank
         else startPreMove ctx w toFile toRank) :=
  rfl

lemma startPreMove_pre (ctx : Ctx) (w : ChoreoWorld) (toF toR : ℤ)
    (v : ChoreoPiece) (hv : w.victim = some v) (hp : shouldPreMoveP w.piece v) :
    (startPreMove ctx w toF toR).bySquare
      = mapSet w.bySquare
          (squareFromCoords (toF - (v.file - w.piece.file).sign)
            (toR - (v.rank - w.piece.rank).sign)) w.piece.id
    ∧ (startPreMove ctx w toF toR).pendingMotion
      = some ⟨boardToWorldX (toF - (v.file - w.piece.file).sign),
          boardToWorldZ (toR - (v.rank - w.piece.rank).sign),
          getMoveSpeedForColor ctx.attrCfg ctx.env w.piece.ptype (some w.piece.pcolor),
          OnComplete.preMoveDone toF toR⟩
    ∧ (startPreMove ctx w toF toR).piece.pstate = PState.moving
    ∧ (startPreMove ctx w toF toR).victim = w.victim
    ∧ (startPreMove ctx w toF toR).scheduledMoveSteps = w.scheduledMoveSteps
    ∧ (startPreMove ctx w toF toR).scheduledClipTimers = w.scheduledClipTimers
    ∧ (startPreMove ctx w toF toR).victimRemovalDelay = w.victimRemovalDelay
    ∧ (startPreMove ctx w toF toR).pendingFirstTimer = w.pendingFirstTimer
    ∧ (startPreMove ctx w toF toR).piece.id = w.piece.id
    ∧ ((w.piece.actions "walk").isSome = true →
        (startPreMove ctx w toF toR).piece.activeClip = some "walk") := by
  unfold startPreMove
  simp only [hv, if_pos hp]
  refine ⟨rfl, ?_, ?_, hv, rfl, rfl, rfl, rfl, ?_, ?_⟩
  · simp [transitionClip_ptype, transitionClip_pcolor, rotateTowardsWorld,
      setBoardPos]
  · simp [transitionClip_pstate, rotateTowardsWorld, setBoardPos]
  · simp [transitionClip_id, rotateTowardsWorld, setBoardPos]
  · intro hw
    obtain ⟨d, hd⟩ := Option.isSome_iff_exists.mp hw
    simp [transitionClip, rotateTowardsWorld, setBoardPos, hd]

lemma settle_preMove_dest (ctx : Ctx) (w : ChoreoWorld) (pm : PendingMotion)
    (toF toR : ℤ) (v : ChoreoPiece)
    (hpm : w.pendingMotion = some pm)
    (hoc : pm.onComplete = OnComplete.preMoveDone toF toR)
    (hv : w.victim = some v) :
    (settleMotion ctx w).bySquare (squareFromCoords toF toR)
      = some w.piece.id := by
  unfold settleMotion
  rw [hpm]
  dsimp only
  rw [hoc]
  exact startAttackSequence_dest ctx
    (setBoardPos { w with
        piece := { w.piece with worldX := pm.targetX, worldZ := pm.targetZ },
        pendingMotion := none } toF toR) toF toR v hv

/-- C3 (amended): for every capturing move the victim's square-index
entry is removed at move-issue time — the victim id appears nowhere in
the index afterwards; the capturing entity occupies the destination
square immediately except when the pre-move applies (sliding attacker
aligned with the victim at Chebyshev distance above 1) or the one-time
first-move clip defers the start; when the pre-move applies the attacker
instead occupies the square adjacent to the victim immediately, the
destination square is unoccupied at issue time, and the attacker takes
the destination square when the pre-move motion completes. -/
theorem movePieceEntity_capture_index (ctx : Ctx) (idx0 : String → Option String)
    (piece victim : ChoreoPiece) (toFile toRank : ℤ)
    (hvf : victim.file = toFile) (hvr : victim.rank = toRank)
    (hid : piece.id ≠ victim.id)
    (hvic : ∀ sq, idx0 sq = some victim.id → sq = squareFromCoords toFile toRank)
    (hf0 : 0 ≤ piece.file) (hf7 : piece.file ≤ 7)
    (hr0 : 0 ≤ piece.rank) (hr7 : piece.rank ≤ 7)
    (ht0 : 0 ≤ toFile) (ht7 : toFile ≤ 7) (hk0 : 0 ≤ toRank) (hk7 : toRank ≤ 7) :
    (∀ sq, (movePieceEntity ctx idx0 piece toFile toRank (some victim)).bySquare sq
        ≠ some victim.id)
    ∧ (¬ shouldPreMoveP piece victim → ¬ firstClipDefers piece →
        (movePieceEntity ctx idx0 piece toFile toRank (some victim)).bySquare
          (squareFromCoords toFile toRank) = some piece.id)
    ∧ (shouldPreMoveP piece victim → ¬ firstClipDefers piece →
        (movePieceEntity ctx idx0 piece toFile toRank (some victim)).bySquare
          (squareFromCoords (toFile - (victim.file - piece.file).sign)
            (toRank - (victim.rank - piece.rank).sign)) = some piece.id
        ∧ (movePieceEntity ctx idx0 piece toFile toRank (some victim)).bySquare
          (squareFromCoords toFile toRank) = none
        ∧ (settleMotion ctx
            (movePieceEntity ctx idx0 piece toFile toRank (some victim))).bySquare
          (squareFromCoords toFile toRank) = some piece.id) := by
  have hbase : ∀ sq,
      mapDelete (mapDelete idx0 (squareFromCoords piece.file piece.rank))
        (squareFromCoords toFile toRank) sq ≠ some victim.id := by
    intro sq hc
    unfold mapDelete at hc
    by_cases h1 : sq = squareFromCoords toFile toRank
    · rw [if_pos h1] at hc
      exact Option.noConfusion hc
    · rw [if_neg h1] at hc
      by_cases h2 : sq = squareFromCoords piece.file piece.rank
      · rw [if_pos h2] at hc
        exact Option.noConfusion hc
      · rw [if_neg h2] at hc
        exact h1 (hvic sq hc)
  refine ⟨?_, ?_, ?_⟩
  · intro sq
    rw [movePieceEntity_capture_unfold]
    dsimp only
    split
    · split
      · exact hbase sq
      · exact startPreMove_absent ctx _ toFile toRank hid hbase sq
    · exact startPreMove_absent ctx _ toFile toRank hid hbase sq
  · intro hnp hnd
    rw [movePieceEntity_capture_unfold]
    dsimp only
    split
    · rename_i hcond
      have hfc : piece.actions "first" = none := by
        cases hfc2 : piece.actions "first" with
        | none => rfl
        | some d => exact absurd ⟨hcond.1, hcond.2, by rw [hfc2]; rfl⟩ hnd
      simp only [hfc]
      exact startPreMove_noPre_dest ctx _ toFile toRank victim rfl hnp
    · exact startPreMove_noPre_dest ctx _ toFile toRank victim rfl hnp
  · intro hp hnd
    have hpreF := pre_square_bounds piece.file victim.file toFile hf0 hf7 ht0 ht7 hvf
    have hpreR := pre_square_bounds piece.rank victim.rank toRank hr0 hr7 hk0 hk7 hvr
    have hpairne :
        (toFile - (victim.file - piece.file).sign,
          toRank - (victim.rank - piece.rank).sign) ≠ (toFile, toRank) := by
      rcases hp.2.2.2 with h | h
      · rcases lt_trichotomy (victim.file - piece.file) 0 with hs | hs | hs
        · rw [Int.sign_eq_neg_one_of_neg hs]
          intro hc
          rw [Prod.mk.injEq] at hc
          omega
        · exact absurd hs h
        · rw [Int.sign_eq_one_of_pos hs]
          intro hc
          rw [Prod.mk.injEq] at hc
          omega
      · rcases lt_trichotomy (victim.rank - piece.rank) 0 with hs | hs | hs
        · rw [Int.sign_eq_neg_one_of_neg hs]
          intro hc
          rw [Prod.mk.injEq] at hc
          omega
        · exact absurd hs h
        · rw [Int.sign_eq_one_of_pos hs]
          intro hc
          rw [Prod.mk.injEq] at hc
          omega
    have hdp : squareFromCoords toFile toRank
        ≠ squareFromCoords (toFile - (victim.file - piece.file).sign)
          (toRank - (victim.rank - piece.rank).sign) :=
      squareFromCoords_injOn _ _ _ _ ⟨ht0, ht7⟩ ⟨hk0, hk7⟩
        ⟨hpreF.1, hpreF.2⟩ ⟨hpreR.1, hpreR.2⟩ (fun hc => hpairne hc.symm)
    rw [movePieceEntity_capture_unfold]
    dsimp only
    split
    · rename_i hcond
      have hfc : piece.actions "first" = none := by
        cases hfc2 : piece.actions "first" with
        | none => rfl
        | some d => exact absurd ⟨hcond.1, hcond.2, by rw [hfc2]; rfl⟩ hnd
      simp only [hfc]
      obtain ⟨hby, hpm, hps, hvic2, _, _, _, _, hid2, _⟩ :=
        startPreMove_pre ctx
          ⟨mapDelete (mapDelete idx0 (squareFromCoords piece.file piece.rank))
            (squareFromCoords toFile toRank),
            { piece with firstMoveDone := true }, some victim, none, false,
            [], [], [], none⟩ toFile toRank victim rfl hp
      refine ⟨?_, ?_, ?_⟩
      · rw [hby]
        simp [mapSet]
      · rw [hby]
        simp [mapSet, mapDelete, hdp]
      · exact (settle_preMove_dest ctx _ _ toFile toRank victim hpm rfl
          hvic2).trans (congrArg some hid2)
    · obtain ⟨hby, hpm, hps, hvic2, _, _, _, _, hid2, _⟩ :=
        startPreMove_pre ctx
          ⟨mapDelete (mapDelete idx0 (squareFromCoords piece.file piece.rank))
            (squareFromCoords toFile toRank),
            piece, some victim, none, false, [], [], [], none⟩ toFile toRank
          victim rfl hp
      refine ⟨?_, ?_, ?_⟩
      · rw [hby]
        simp [mapSet]
      · rw [hby]
        simp [mapSet, mapDelete, hdp]
      · exact (settle_preMove_dest ctx _ _ toFile toRank victim hpm rfl
          hvic2).trans (congrArg some hid2)

/-- C3 counterexample: the white rook on a1 (first move already spent)
captures the black pawn on a4 — a sliding attacker aligned at Chebyshev
distance 3.  At issue time the destination square a4 maps to no entity at
all (the rook holds the adjacent square a3 instead), contradicting the
claim that the capturer occupies the destination square immediately
regardless of attacker type or attack distance. -/
theorem capture_dest_not_immediate :
    (movePieceEntity emptyCtx idxRookPawn rookEntity 0 3
        (some pawnVictim)).bySquare (squareFromCoords 0 3) = none
    ∧ (movePieceEntity emptyCtx idxRookPawn rookEntity 0 3
        (some pawnVictim)).bySquare (squareFromCoords 0 2)
      = some rookEntity.id := by
  decide

/-- Witness for C3 at the rook-takes-pawn scenario. -/
theorem movePieceEntity_capture_index_witness :
    (∀ sq, (movePieceEntity emptyCtx idxRookPawn rookEntity 0 3
        (some pawnVictim)).bySquare sq ≠ some pawnVictim.id)
    ∧ (¬ shouldPreMoveP rookEntity pawnVictim → ¬ firstClipDefers rookEntity →
        (movePieceEntity emptyCtx idxRookPawn rookEntity 0 3
            (some pawnVictim)).bySquare (squareFromCoords 0 3)
          = some rookEntity.id)
    ∧ (shouldPreMoveP rookEntity pawnVictim → ¬ firstClipDefers rookEntity →
        (movePieceEntity emptyCtx idxRookPawn rookEntity 0 3
            (some pawnVictim)).bySquare
          (squareFromCoords (0 - (pawnVictim.file - rookEntity.file).sign)
            (3 - (pawnVictim.rank - rookEntity.rank).sign))
          = some rookEntity.id
        ∧ (movePieceEntity emptyCtx idxRookPawn rookEntity 0 3
            (some pawnVictim)).bySquare (squareFromCoords 0 3) = none
        ∧ (settleMotion emptyCtx
            (movePieceEntity emptyCtx idxRookPawn rookEntity 0 3
              (some pawnVictim))).bySquare (squareFromCoords 0 3)
          = some rookEntity.id) :=
  movePieceEntity_capture_index emptyCtx idxRookPawn rookEntity pawnVictim 0 3
    rfl rfl (by decide)
    (by
      intro sq h
      unfold idxRookPawn at h
      split at h
      · exact absurd (Option.some.inj h) (by decide)
      · split at h
        · rename_i hsq
          rw [hsq]
          decide
        · exact Option.noConfusion h)
    (by decide) (by decide) (by decide) (by decide) (by decide) (by decide)
    (by decide) (by decide)

lemma scheduleSequence_moveSteps_ne_nil (steps : List AttackSequenceStep)
    (attacker victim : ChoreoPiece) (speed : ℚ) :
    (scheduleSequence steps attacker victim (some speed)).2.1 ≠ [] := by
  unfold scheduleSequence
  simp

lemma startAttackSequence_pendingMotion (ctx : Ctx) (w : ChoreoWorld)
    (toF toR : ℤ) (v : ChoreoPiece) (hv : w.victim = some v) :
    (startAttackSequence ctx w toF toR).pendingMotion = w.pendingMotion := by
  unfold startAttackSequence
  simp only [hv]
  split
  · rename_i hempty
    exact absurd hempty (scheduleSequence_moveSteps_ne_nil _ _ _ _)
  · rfl

lemma startPreMove_noPre_obs (ctx : Ctx) (w : ChoreoWorld) (toF toR : ℤ)
    (v : ChoreoPiece) (hv : w.victim = some v)
    (hnp : ¬ shouldPreMoveP w.piece v) :
    (startPreMove ctx w toF toR).victimRemovalDelay
      = some (max (specVictimEndMs
          (getAttackSequence ctx.seqCfg w.piece.ptype v.ptype) v) 300)
    ∧ (startPreMove ctx w toF toR).pendingMotion = w.pendingMotion := by
  unfold startPreMove
  simp only [hv, if_neg hnp]
  exact ⟨startAttackSequence_removalDelay ctx w toF toR v hv,
    startAttackSequence_pendingMotion ctx w toF toR v hv⟩

lemma settle_preMove_removal (ctx : Ctx) (w : ChoreoWorld) (pm : PendingMotion)
    (toF toR : ℤ) (v : ChoreoPiece)
    (hpm : w.pendingMotion = some pm)
    (hoc : pm.onComplete = OnComplete.preMoveDone toF toR)
    (hv : w.victim = some v) :
    (settleMotion ctx w).victimRemovalDelay.isSome = true := by
  unfold settleMotion
  rw [hpm]
  dsimp only
  rw [hoc]
  rw [startAttackSequence_removalDelay ctx
    (setBoardPos { w with
        piece := { w.piece with worldX := pm.targetX, worldZ := pm.targetZ },
        pendingMotion := none } toF toR) toF toR v hv]
  rfl

lemma startAttackSequence_pendingFirstTimer (ctx : Ctx) (w : ChoreoWorld)
    (toF toR : ℤ) (v : ChoreoPiece) (hv : w.victim = some v) :
    (startAttackSequence ctx w toF toR).pendingFirstTimer
      = w.pendingFirstTimer := by
  unfold startAttackSequence
  simp only [hv]
  split <;> rfl

lemma startPreMove_noPre_pft (ctx : Ctx) (w : ChoreoWorld) (toF toR : ℤ)
    (v : ChoreoPiece) (hv : w.victim = some v)
    (hnp : ¬ shouldPreMoveP w.piece v) :
    (startPreMove ctx w toF toR).pendingFirstTimer = w.pendingFirstTimer := by
  unfold startPreMove
  simp only [hv, if_neg hnp]
  exact startAttackSequence_pendingFirstTimer ctx w toF toR v hv

lemma fireFirstTimer_noop (ctx : Ctx) (w : ChoreoWorld) (toF toR : ℤ)
    (h : w.pendingFirstTimer = false) :
    fireFirstTimer ctx w toF toR = w := by
  unfold fireFirstTimer
  rw [h]
  rfl

/-- C5: for every capturing move by a sliding attacker aligned with the
victim at Chebyshev distance above 1 — including an attacker whose
one-time first-move warm-up clip defers startPreMove behind a timer —
the pre-move gates the attack sequence.  At issue time nothing of the
attack sequence is scheduled (no move step, no clip timer, no victim
removal).  Once the warm-up timer has fired (fireFirstTimer, which is
the identity when no warm-up clip deferred the start), the one pending
motion is the pre-move walk toward the square immediately adjacent to
the victim along the attack line (Chebyshev distance 1 from the victim),
with the attacker merely moving and still nothing of the attack sequence
scheduled; the attack sequence starts only when that motion completes
(the removal timer appears after settling).  A non-sliding, adjacent or
unaligned attacker skips the pre-move: once the warm-up timer has fired
it has started the attack sequence at once, with no pending motion. -/
theorem preMove_gates_attack (ctx : Ctx) (idx0 : String → Option String)
    (piece victim : ChoreoPiece) (toFile toRank : ℤ)
    (hvf : victim.file = toFile) (hvr : victim.rank = toRank) :
    (shouldPreMoveP piece victim →
        (movePieceEntity ctx idx0 piece toFile toRank
            (some victim)).scheduledMoveSteps = []
        ∧ (movePieceEntity ctx idx0 piece toFile toRank
            (some victim)).scheduledClipTimers = []
        ∧ (movePieceEntity ctx idx0 piece toFile toRank
            (some victim)).victimRemovalDelay = none
        ∧ (fireFirstTimer ctx (movePieceEntity ctx idx0 piece toFile toRank
            (some victim)) toFile toRank).pendingMotion
          = some ⟨boardToWorldX (toFile - (victim.file - piece.file).sign),
              boardToWorldZ (toRank - (victim.rank - piece.rank).sign),
              getMoveSpeedForColor ctx.attrCfg ctx.env piece.ptype
                (some piece.pcolor),
              OnComplete.preMoveDone toFile toRank⟩
        ∧ (fireFirstTimer ctx (movePieceEntity ctx idx0 piece toFile toRank
            (some victim)) toFile toRank).piece.pstate = PState.moving
        ∧ (fireFirstTimer ctx (movePieceEntity ctx idx0 piece toFile toRank
            (some victim)) toFile toRank).scheduledMoveSteps = []
        ∧ (fireFirstTimer ctx (movePieceEntity ctx idx0 piece toFile toRank
            (some victim)) toFile toRank).scheduledClipTimers = []
        ∧ (fireFirstTimer ctx (movePieceEntity ctx idx0 piece toFile toRank
            (some victim)) toFile toRank).victimRemovalDelay = none
        ∧ (fireFirstTimer ctx (movePieceEntity ctx idx0 piece toFile toRank
            (some victim)) toFile toRank).victim = some victim
        ∧ ((piece.actions "walk").isSome = true →
            (fireFirstTimer ctx (movePieceEntity ctx idx0 piece toFile toRank
              (some victim)) toFile toRank).piece.activeClip = some "walk")
        ∧ max (victim.file - (toFile - (victim.file - piece.file).sign)).natAbs
            (victim.rank - (toRank - (victim.rank - piece.rank).sign)).natAbs = 1
        ∧ (settleMotion ctx (fireFirstTimer ctx
            (movePieceEntity ctx idx0 piece toFile toRank (some victim))
            toFile toRank)).victimRemovalDelay.isSome = true)
    ∧ (¬ shouldPreMoveP piece victim →
        (fireFirstTimer ctx (movePieceEntity ctx idx0 piece toFile toRank
          (some victim)) toFile toRank).victimRemovalDelay.isSome = true
        ∧ (fireFirstTimer ctx (movePieceEntity ctx idx0 piece toFile toRank
          (some victim)) toFile toRank).pendingMotion = none) := by
  refine ⟨?_, ?_⟩
  · intro hp
    have hadj : max
        (victim.file - (toFile - (victim.file - piece.file).sign)).natAbs
        (victim.rank - (toRank - (victim.rank - piece.rank).sign)).natAbs = 1 := by
      have h1 : victim.file - (toFile - (victim.file - piece.file).sign)
          = (victim.file - piece.file).sign := by omega
      have h2 : victim.rank - (toRank - (victim.rank - piece.rank).sign)
          = (victim.rank - piece.rank).sign := by omega
      rw [h1, h2, Int.natAbs_sign, Int.natAbs_sign]
      rcases hp.2.2.2 with h | h
      · rw [if_neg h]
        split <;> decide
      · rw [if_neg h]
        split <;> decide
    rw [movePieceEntity_capture_unfold]
    dsimp only
    split
    · rename_i hcond
      cases hfc : piece.actions "first" with
      | some d =>
        simp only [hfc]
        obtain ⟨hby, hpm, hps, hvic2, hms, hct, hrd, hft, hid2, hwalk⟩ :=
          startPreMove_pre ctx
            ⟨mapDelete (mapDelete idx0
                (squareFromCoords piece.file piece.rank))
              (squareFromCoords toFile toRank),
              { piece with firstMoveDone := true, activeClip := some "first" },
              some victim, none, false, [], [], [], none⟩ toFile toRank
            victim rfl hp
        exact ⟨trivial, trivial, trivial, hpm, hps, hms, hct, hrd, hvic2,
          hwalk, hadj,
          settle_preMove_removal ctx _ _ toFile toRank victim hpm rfl hvic2⟩
      | none =>
        simp only [hfc]
        obtain ⟨hby, hpm, hps, hvic2, hms, hct, hrd, hft, hid2, hwalk⟩ :=
          startPreMove_pre ctx
            ⟨mapDelete (mapDelete idx0
                (squareFromCoords piece.file piece.rank))
              (squareFromCoords toFile toRank),
              { piece with firstMoveDone := true }, some victim, none, false,
              [], [], [], none⟩ toFile toRank victim rfl hp
        have hnoop := fireFirstTimer_noop ctx
          (startPreMove ctx
            ⟨mapDelete (mapDelete idx0
                (squareFromCoords piece.file piece.rank))
              (squareFromCoords toFile toRank),
              { piece with firstMoveDone := true }, some victim, none, false,
              [], [], [], none⟩ toFile toRank) toFile toRank hft
        exact ⟨hms, hct, hrd,
          (congrArg ChoreoWorld.pendingMotion hnoop).trans hpm,
          (congrArg (fun w => w.piece.pstate) hnoop).trans hps,
          (congrArg ChoreoWorld.scheduledMoveSteps hnoop).trans hms,
          (congrArg ChoreoWorld.scheduledClipTimers hnoop).trans hct,
          (congrArg ChoreoWorld.victimRemovalDelay hnoop).trans hrd,
          (congrArg ChoreoWorld.victim hnoop).trans hvic2,
          fun hw => (congrArg (fun w => w.piece.activeClip) hnoop).trans
            (hwalk hw),
          hadj,
          (congrArg (fun w => (settleMotion ctx w).victimRemovalDelay.isSome)
            hnoop).trans
            (settle_preMove_removal ctx _ _ toFile toRank victim hpm rfl
              hvic2)⟩
    · obtain ⟨hby, hpm, hps, hvic2, hms, hct, hrd, hft, hid2, hwalk⟩ :=
        startPreMove_pre ctx
          ⟨mapDelete (mapDelete idx0
              (squareFromCoords piece.file piece.rank))
            (squareFromCoords toFile toRank),
            piece, some victim, none, false, [], [], [], none⟩ toFile toRank
          victim rfl hp
      have hnoop := fireFirstTimer_noop ctx
        (startPreMove ctx
          ⟨mapDelete (mapDelete idx0
              (squareFromCoords piece.file piece.rank))
            (squareFromCoords toFile toRank),
            piece, some victim, none, false, [], [], [], none⟩ toFile toRank)
        toFile toRank hft
      exact ⟨hms, hct, hrd,
        (congrArg ChoreoWorld.pendingMotion hnoop).trans hpm,
        (congrArg (fun w => w.piece.pstate) hnoop).trans hps,
        (congrArg ChoreoWorld.scheduledMoveSteps hnoop).trans hms,
        (congrArg ChoreoWorld.scheduledClipTimers hnoop).trans hct,
        (congrArg ChoreoWorld.victimRemovalDelay hnoop).trans hrd,
        (congrArg ChoreoWorld.victim hnoop).trans hvic2,
        fun hw => (congrArg (fun w => w.piece.activeClip) hnoop).trans
          (hwalk hw),
        hadj,
        (congrArg (fun w => (settleMotion ctx w).victimRemovalDelay.isSome)
          hnoop).trans
          (settle_preMove_removal ctx _ _ toFile toRank victim hpm rfl
            hvic2)⟩
  · intro hnp
    rw [movePieceEntity_capture_unfold]
    dsimp only
    split
    · rename_i hcond
      cases hfc : piece.actions "first" with
      | some d =>
        simp only [hfc]
        obtain ⟨h1, h2⟩ := startPreMove_noPre_obs ctx
          ⟨mapDelete (mapDelete idx0
              (squareFromCoords piece.file piece.rank))
            (squareFromCoords toFile toRank),
            { piece with firstMoveDone := true, activeClip := some "first" },
            some victim, none, false, [], [], [], none⟩ toFile toRank
          victim rfl hnp
        have h3 : (startPreMove ctx
            ⟨mapDelete (mapDelete idx0
                (squareFromCoords piece.file piece.rank))
              (squareFromCoords toFile toRank),
              { piece with firstMoveDone := true, activeClip := some "first" },
              some victim, none, false, [], [], [], none⟩ toFile
            toRank).victimRemovalDelay.isSome = true := by
          rw [h1]
          rfl
        exact ⟨h3, h2⟩
      | none =>
        simp only [hfc]
        obtain ⟨h1, h2⟩ := startPreMove_noPre_obs ctx
          ⟨mapDelete (mapDelete idx0
              (squareFromCoords piece.file piece.rank))
            (squareFromCoords toFile toRank),
            { piece with firstMoveDone := true }, some victim, none, false,
            [], [], [], none⟩ toFile toRank victim rfl hnp
        have hpft := startPreMove_noPre_pft ctx
          ⟨mapDelete (mapDelete idx0
              (squareFromCoords piece.file piece.rank))
            (squareFromCoords toFile toRank),
            { piece with firstMoveDone := true }, some victim, none, false,
            [], [], [], none⟩ toFile toRank victim rfl hnp
        have hnoop := fireFirstTimer_noop ctx
          (startPreMove ctx
            ⟨mapDelete (mapDelete idx0
                (squareFromCoords piece.file piece.rank))
              (squareFromCoords toFile toRank),
              { piece with firstMoveDone := true }, some victim, none, false,
              [], [], [], none⟩ toFile toRank) toFile toRank hpft
        have h3 : (startPreMove ctx
            ⟨mapDelete (mapDelete idx0
                (squareFromCoords piece.file piece.rank))
              (squareFromCoords toFile toRank),
              { piece with firstMoveDone := true }, some victim, none, false,
              [], [], [], none⟩ toFile toRank).victimRemovalDelay.isSome
            = true := by
          rw [h1]
          rfl
        exact ⟨(congrArg (fun w => w.victimRemovalDelay.isSome) hnoop).trans h3,
          (congrArg ChoreoWorld.pendingMotion hnoop).trans h2⟩
    · obtain ⟨h1, h2⟩ := startPreMove_noPre_obs ctx
        ⟨mapDelete (mapDelete idx0
            (squareFromCoords piece.file piece.rank))
          (squareFromCoords toFile toRank),
          piece, some victim, none, false, [], [], [], none⟩ toFile toRank
        victim rfl hnp
      have hpft := startPreMove_noPre_pft ctx
        ⟨mapDelete (mapDelete idx0
            (squareFromCoords piece.file piece.rank))
          (squareFromCoords toFile toRank),
          piece, some victim, none, false, [], [], [], none⟩ toFile toRank
        victim rfl hnp
      have hnoop := fireFirstTimer_noop ctx
        (startPreMove ctx
          ⟨mapDelete (mapDelete idx0
              (squareFromCoords piece.file piece.rank))
            (squareFromCoords toFile toRank),
            piece, some victim, none, false, [], [], [], none⟩ toFile toRank)
        toFile toRank hpft
      have h3 : (startPreMove ctx
          ⟨mapDelete (mapDelete idx0
              (squareFromCoords piece.file piece.rank))
            (squareFromCoords toFile toRank),
            piece, some victim, none, false, [], [], [], none⟩ toFile
          toRank).victimRemovalDelay.isSome = true := by
        rw [h1]
        rfl
      exact ⟨(congrArg (fun w => w.victimRemovalDelay.isSome) hnoop).trans h3,
        (congrArg ChoreoWorld.pendingMotion hnoop).trans h2⟩

/-- Witness for C5 at the rook-takes-pawn scenario (aligned file attack at
Chebyshev distance 3; the rook has already spent its first-move clip, so
fireFirstTimer is the identity here). -/
theorem preMove_gates_attack_witness :
    (shouldPreMoveP rookEntity pawnVictim →
        (movePieceEntity emptyCtx idxRookPawn rookEntity 0 3
            (some pawnVictim)).scheduledMoveSteps = []
        ∧ (movePieceEntity emptyCtx idxRookPawn rookEntity 0 3
            (some pawnVictim)).scheduledClipTimers = []
        ∧ (movePieceEntity emptyCtx idxRookPawn rookEntity 0 3
            (some pawnVictim)).victimRemovalDelay = none
        ∧ (fireFirstTimer emptyCtx (movePieceEntity emptyCtx idxRookPawn
            rookEntity 0 3 (some pawnVictim)) 0 3).pendingMotion
          = some ⟨boardToWorldX (0 - (pawnVictim.file - rookEntity.file).sign),
              boardToWorldZ (3 - (pawnVictim.rank - rookEntity.rank).sign),
              getMoveSpeedForColor emptyCtx.attrCfg emptyCtx.env
                rookEntity.ptype (some rookEntity.pcolor),
              OnComplete.preMoveDone 0 3⟩
        ∧ (fireFirstTimer emptyCtx (movePieceEntity emptyCtx idxRookPawn
            rookEntity 0 3 (some pawnVictim)) 0 3).piece.pstate
          = PState.moving
        ∧ (fireFirstTimer emptyCtx (movePieceEntity emptyCtx idxRookPawn
            rookEntity 0 3 (some pawnVictim)) 0 3).scheduledMoveSteps = []
        ∧ (fireFirstTimer emptyCtx (movePieceEntity emptyCtx idxRookPawn
            rookEntity 0 3 (some pawnVictim)) 0 3).scheduledClipTimers = []
        ∧ (fireFirstTimer emptyCtx (movePieceEntity emptyCtx idxRookPawn
            rookEntity 0 3 (some pawnVictim)) 0 3).victimRemovalDelay = none
        ∧ (fireFirstTimer emptyCtx (movePieceEntity emptyCtx idxRookPawn
            rookEntity 0 3 (some pawnVictim)) 0 3).victim = some pawnVictim
        ∧ ((rookEntity.actions "walk").isSome = true →
            (fireFirstTimer emptyCtx (movePieceEntity emptyCtx idxRookPawn
              rookEntity 0 3 (some pawnVictim)) 0 3).piece.activeClip
              = some "walk")
        ∧ max (pawnVictim.file
              - (0 - (pawnVictim.file - rookEntity.file).sign)).natAbs
            (pawnVictim.rank
              - (3 - (pawnVictim.rank - rookEntity.rank).sign)).natAbs = 1
        ∧ (settleMotion emptyCtx (fireFirstTimer emptyCtx
            (movePieceEntity emptyCtx idxRookPawn rookEntity 0 3
              (some pawnVictim)) 0 3)).victimRemovalDelay.isSome = true)
    ∧ (¬ shouldPreMoveP rookEntity pawnVictim →
        (fireFirstTimer emptyCtx (movePieceEntity emptyCtx idxRookPawn
          rookEntity 0 3 (some pawnVictim)) 0 3).victimRemovalDelay.isSome
          = true
        ∧ (fireFirstTimer emptyCtx (movePieceEntity emptyCtx idxRookPawn
          rookEntity 0 3 (some pawnVictim)) 0 3).pendingMotion = none) :=
  preMove_gates_attack emptyCtx idxRookPawn rookEntity pawnVictim 0 3 rfl rfl

lemma fireMoveStep_moveToken (ctx : Ctx) (w : ChoreoWorld) (step : MoveStep)
    (toFile toRank : ℤ) :
    (fireMoveStep ctx w step toFile toRank).piece.moveToken
      = some (match w.piece.moveToken with
          | some t => t + 1
          | none => 1) := by
  cases hact : w.piece.actions step.clip <;>
    cases hloop : step.loop <;>
      simp [fireMoveStep, rotateTowardsWorld, hact, hloop]

/-- C9: every staged motion fired inside an attack sequence tags the
entity with a move token — present afterwards, and strictly greater than
any token the entity carried before — and a stop-at-clip-end timer whose
token is stale (the entity carries a different token because a newer
motion was issued) performs no state change at all: the world is returned
unchanged, so it neither stops the current motion nor forces an idle
transition. -/
theorem moveToken_monotone_stale_noop (ctx : Ctx) (w : ChoreoWorld)
    (step : MoveStep) (toFile toRank : ℤ) (token : ℕ) :
    ((fireMoveStep ctx w step toFile toRank).piece.moveToken.isSome = true)
    ∧ (∀ t t2, w.piece.moveToken = some t →
        (fireMoveStep ctx w step toFile toRank).piece.moveToken = some t2 →
        t < t2)
    ∧ (w.piece.moveToken ≠ some token → fireStopTimer w token = w) := by
  refine ⟨?_, ?_, ?_⟩
  · rw [fireMoveStep_moveToken]
    rfl
  · intro t t2 h1 h2
    rw [fireMoveStep_moveToken, h1] at h2
    simp at h2
    omega
  · intro hne
    unfold fireStopTimer
    rw [if_pos hne]

/-- Witness for C9: a freshly fired move step tags the untagged rook with
a token; firing on a piece already carrying token 3 yields a strictly
larger token; and a stop timer carrying token 5 against the untagged rook
is a strict no-op. -/
theorem moveToken_monotone_stale_noop_witness :
    ((fireMoveStep emptyCtx plainWorld ⟨0, "walk", none, false, true⟩
        0 3).piece.moveToken.isSome = true)
    ∧ (3:ℕ) < 4
    ∧ plainWorld.piece.moveToken ≠ some 5
    ∧ fireStopTimer plainWorld 5 = plainWorld :=
  ⟨(moveToken_monotone_stale_noop emptyCtx plainWorld
      ⟨0, "walk", none, false, true⟩ 0 3 5).1,
    (moveToken_monotone_stale_noop emptyCtx
      { plainWorld with piece := { rookEntity with moveToken := some 3 } }
      ⟨0, "walk", none, false, true⟩ 0 3 5).2.1 3 4 (by decide) (by decide),
    by decide,
    (moveToken_monotone_stale_noop emptyCtx plainWorld
      ⟨0, "walk", none, false, true⟩ 0 3 5).2.2 (by decide)⟩

lemma decVal_append_digit (l : List Char) (c : Char) :
    decVal (l ++ [c]) = 10 * decVal l + (c.toNat - 48) := by
  unfold decVal
  rw [List.foldl_append]
  rfl

lemma char_ofNat_toNat_digit (d : ℕ) (hd : d < 10) :
    (Char.ofNat (48 + d)).toNat = 48 + d := by
  interval_cases d <;> decide

lemma decVal_natToDec (n : ℕ) : decVal (natToDec n) = n := by
  induction n using Nat.strong_induction_on with
  | _ n ih =>
    unfold natToDec
    split
    · rename_i h
      unfold decVal
      simp only [List.foldl_cons, List.foldl_nil]
      rw [char_ofNat_toNat_digit n h]
      omega
    · rename_i h
      rw [decVal_append_digit]
      rw [ih (n / 10) (Nat.div_lt_self (by omega) (by omega))]
      rw [char_ofNat_toNat_digit (n % 10) (Nat.mod_lt _ (by omega))]
      omega

lemma natToDec_inj {a b : ℕ} (h : natToDec a = natToDec b) : a = b := by
  rw [← decVal_natToDec a, ← decVal_natToDec b, h]

lemma pieceIdString_inj_counter {c1 c2 : Color} {t1 t2 : PieceType}
    {n1 n2 : ℕ} (h : pieceIdString c1 t1 n1 = pieceIdString c2 t2 n2) :
    n1 = n2 := by
  unfold pieceIdString at h
  have hd := congrArg String.data h
  simp only [List.cons.injEq] at hd
  exact natToDec_inj hd.2.2.2

lemma createRun_id_shape (specs : List (Color × PieceType × ℤ × ℤ)) :
    ∀ (k : ℕ) (e : EntityRec), e ∈ createRun k specs →
      ∃ c t n, k ≤ n ∧ e.id = pieceIdString c t n := by
  induction specs with
  | nil =>
    intro k e he
    exact absurd he (List.not_mem_nil e)
  | cons s rest ih =>
    intro k e he
    obtain ⟨c, t, f, r⟩ := s
    rcases List.mem_cons.mp he with h | h
    · exact ⟨c, t, k, le_refl k, by rw [h]; rfl⟩

    · obtain ⟨c2, t2, n, hn, hid⟩ := ih (k + 1) e h
      exact ⟨c2, t2, n, by omega, hid⟩

/-- C10: the ids of entities created in one run are pairwise distinct —
each id embeds the strictly increasing global entityCounter, so
installing a newly created entity in the id-keyed registry can never
overwrite a different live entity. -/
theorem createRun_ids_pairwise_distinct
    (specs : List (Color × PieceType × ℤ × ℤ)) (k : ℕ) :
    List.Pairwise (fun a b => a.id ≠ b.id) (createRun k specs) := by
  induction specs generalizing k with
  | nil => exact List.Pairwise.nil
  | cons s rest ih =>
    obtain ⟨c, t, f, r⟩ := s
    refine List.Pairwise.cons ?_ (ih (k + 1))
    intro e he hcontra
    obtain ⟨c2, t2, n, hn, heid⟩ := createRun_id_shape rest (k + 1) e he
    rw [heid] at hcontra
    have := pieceIdString_inj_counter hcontra
    omega

/-- Witness for C2: the rook relocating from a1 to a4 without capture. -/
theorem movePieceEntity_plain_relocation_witness :
    (movePieceEntity emptyCtx idxRookPawn rookEntity 0 3 none).bySquare
        (squareFromCoords rookEntity.file rookEntity.rank) = none
    ∧ (movePieceEntity emptyCtx idxRookPawn rookEntity 0 3 none).bySquare
        (squareFromCoords 0 3) = some rookEntity.id
    ∧ (movePieceEntity emptyCtx idxRookPawn rookEntity 0 3 none).piece.pstate
        = PState.moving
    ∧ ((movePieceEntity emptyCtx idxRookPawn rookEntity 0 3 none).pendingMotion.map
        (fun pm => pm.onComplete)) = some OnComplete.finalizeIfMoving
    ∧ (settleMotion emptyCtx
        (movePieceEntity emptyCtx idxRookPawn rookEntity 0 3 none)).piece.pstate
        = PState.idle
    ∧ (settleMotion emptyCtx
        (movePieceEntity emptyCtx idxRookPawn rookEntity 0 3 none)).piece.rotTarget
        = some (RotCmd.yaw rookEntity.baseRotationY) :=
  movePieceEntity_plain_relocation emptyCtx idxRookPawn rookEntity 0 3
    (by decide) (by decide) (by decide) (by decide) (by decide) (by decide)
    (by decide) (by decide) (by decide)
